import Mathlib

/-!
Verification development for the ANAY personal-assistant backend
(`backend/automation/task_planner.py`, `backend/websocket_manager.py`,
`backend/groq_llm.py`), shallowly embedded in Lean 4.

Machine strings are Lean `String`s; Python dictionaries that the code
treats as string maps become association lists; fallible calls return
explicit outcome types.  Each definition is a direct translation of the
Python function it names; definitions that model repository code that is
not present in the source tree (the `SafetyGuard`, `ContextManager`)
say so in their doc comment.
-/

/-- A value of the dynamic result shapes the tools return in Python:
tuples, plain strings, booleans, or `None`.  Tuple elements are
themselves primitive values. -/
inductive PyPrim where
  | s (v : String)
  | b (v : Bool)
  | none
deriving Repr, DecidableEq

/-- Python `str()` on a primitive value. -/
def pyStr : PyPrim → String
  | .s v => v
  | .b true => "True"
  | .b false => "False"
  | .none => "None"

/-- The dynamic shape of a tool call's return value. -/
inductive StepRes where
  | tupleRes (elems : List PyPrim)
  | strRes (v : String)
  | boolRes (v : Bool)
  | noneRes
deriving Repr, DecidableEq

/-- Outcome of `TaskPlanner._run_tool`: either the call returned a value
or it raised an exception carrying `str(e)`. -/
inductive ToolOutcome where
  | ok (res : StepRes)
  | raises (msg : String)
deriving Repr, DecidableEq

def ToolOutcome.isOk : ToolOutcome → Bool
  | .ok _ => true
  | .raises _ => false

/-- One plan step, `{"tool": ..., "action": ..., "params": {...}}`.
Parameter values are opaque strings for the purposes of this model. -/
structure PlanStep where
  tool : String
  action : String
  params : List (String × String)
deriving Repr, DecidableEq

/-- The Safety Gate interface: `validate_action(tool, params)` returning
`(is_safe, reason)`.  The concrete `SafetyGuard` is an external
collaborator, so the gate is a parameter of the executor. -/
abbrev Safety : Type := String → List (String × String) → Bool × String

/-- The tool-call interface seen by the execution loop: given
`(tool, action, params)`, either a returned value or a raised error. -/
abbrev RunTool : Type := String → String → List (String × String) → ToolOutcome

/-- The Context Store snapshot: a string-keyed map. -/
abbrev Ctx : Type := List (String × String)

/-- Lookup of a context field (Python `dict.get`, `None` when absent). -/
def ctxGet (ctx : Ctx) (k : String) : Option String :=
  (ctx.find? (fun p => p.1 = k)).map (fun p => p.2)

/-- Set one key of the snapshot, keeping every other entry in place. -/
def ctxSet (ctx : Ctx) (k v : String) : Ctx :=
  if ctx.any (fun p => p.1 = k) then
    ctx.map (fun p => if p.1 = k then (k, v) else p)
  else
    ctx ++ [(k, v)]

/-- Modelled from the spec: `ContextManager.update_context` (the file
`automation/context_manager.py` is not in the source tree).  Per the
spec the Context Store is "merged (not replaced) on update" and "the
merge never removes previously known fields that aren't addressed by
the current update". -/
def update_context (ctx : Ctx) (upd : List (String × String)) : Ctx :=
  upd.foldl (fun c p => ctxSet c p.1 p.2) ctx

/-- Substring containment, Python's `needle in haystack`, on char lists. -/
def containsSubL (needle : List Char) : List Char → Bool
  | [] => needle.isEmpty
  | c :: rest => needle.isPrefixOf (c :: rest) || containsSubL needle rest

/-- Substring containment on strings. -/
def containsSub (needle hay : String) : Bool :=
  containsSubL needle.data hay.data

/-- The message extracted from a raw step result in `execute_plan`:
`str(res[1])` for a tuple of length at least two, the string itself for
a string, and the empty string otherwise. -/
def extractMsg : StepRes → String
  | .tupleRes (_ :: x :: _) => pyStr x
  | .strRes v => v
  | _ => ""

/-- The filter in `execute_plan`:
`if msg and "True" not in msg and "False" not in msg`. -/
def keepMsg (msg : String) : Bool :=
  msg ≠ "" && !containsSub "True" msg && !containsSub "False" msg

/-- Observable events of one run of the execution loop, used to state
temporal claims: a Safety Gate validation of step `i`, or a tool
execution of step `i`. -/
inductive Event where
  | validate (i : Nat) (tool : String)
  | execute (i : Nat) (tool action : String)
deriving Repr, DecidableEq

/-- Result of the `for step in plan` loop of `execute_plan`: an early
`return` (safety rejection or execution error) with the returned string,
or normal completion with the retained messages; both carry the event
trace. -/
inductive LoopOut where
  | aborted (resp : String) (tr : List Event)
  | finished (msgs : List String) (tr : List Event)
deriving Repr, DecidableEq

/-- The execution loop of `TaskPlanner.execute_plan` (steps 4 of the
Python method), indexed by the position of the first remaining step.
For each step: validate, return the rejection message if unsafe, run
the tool, return the error message if it raises, otherwise retain the
extracted message when it passes the filter. -/
def execLoop (v : Safety) (r : RunTool) : List PlanStep → Nat → LoopOut
  | [], _ => .finished [] []
  | step :: rest, i =>
    let vres := v step.tool step.params
    if vres.1 = false then
      .aborted ("I couldn't complete the task because: " ++ vres.2)
        [Event.validate i step.tool]
    else
      match r step.tool step.action step.params with
      | .raises e =>
        .aborted ("Error executing step " ++ step.action ++ ": " ++ e)
          [Event.validate i step.tool, Event.execute i step.tool step.action]
      | .ok res =>
        let msg := extractMsg res
        match execLoop v r rest (i + 1) with
        | .aborted resp tr =>
          .aborted resp
            (Event.validate i step.tool :: Event.execute i step.tool step.action :: tr)
        | .finished msgs tr =>
          .finished (if keepMsg msg then msg :: msgs else msgs)
            (Event.validate i step.tool :: Event.execute i step.tool step.action :: tr)

/-- The observable outcome of `execute_plan`: the returned string, the
Context Store after the run, and the event trace. -/
structure ExecOut where
  response : String
  ctx : Ctx
  trace : List Event
deriving Repr, DecidableEq

/-- `TaskPlanner.execute_plan`, given the already-generated plan steps
(the plan comes from `_generate_plan`; an empty or missing `steps` list
returns the `NO_ACTION_REQUIRED` signal before the loop).  After a
completed loop the summary is `"Done."` when no messages were retained
and otherwise the messages joined with `" and "`, and the Context Store
is merged with `last_task_summary`; an early return leaves the store
untouched. -/
def execute_plan (v : Safety) (r : RunTool) (steps : List PlanStep) (ctx : Ctx) : ExecOut :=
  if steps.isEmpty then
    ⟨"NO_ACTION_REQUIRED", ctx, []⟩
  else
    match execLoop v r steps 0 with
    | .aborted resp tr => ⟨resp, ctx, tr⟩
    | .finished msgs tr =>
      let summary := if msgs.isEmpty then "Done." else String.intercalate " and " msgs
      ⟨summary, update_context ctx [("last_task_summary", summary)], tr⟩

/-- A step both passes the Safety Gate and executes without raising. -/
def stepPasses (v : Safety) (r : RunTool) (s : PlanStep) : Bool :=
  (v s.tool s.params).1 && (r s.tool s.action s.params).isOk

/-- The message a passing step contributes to the summary, if any. -/
def keptMsgOf (r : RunTool) (s : PlanStep) : Option String :=
  match r s.tool s.action s.params with
  | .ok res => if keepMsg (extractMsg res) then some (extractMsg res) else Option.none
  | .raises _ => Option.none

/-- The trace of a fully executed suffix of the plan starting at
index `i`: each step is validated, then executed, in order. -/
def fullTrace : List PlanStep → Nat → List Event
  | [], _ => []
  | s :: rest, i =>
    Event.validate i s.tool :: Event.execute i s.tool s.action :: fullTrace rest (i + 1)

/-- The seven data attributes that `TaskPlanner.__init__` sets: the
tool instances, the safety gate, the context manager and the LLM
client. -/
inductive Capability where
  | system
  | files
  | browser
  | input
  | safety
  | ctx
  | llm
deriving Repr, DecidableEq

/-- What `getattr(self, name, None)` can hand to `_run_tool` as
`tool_instance`: one of the seven `__init__` data attributes, or any
other attribute Python finds on the object — the planner's own methods
and the special attributes inherited through its class — recorded here
only by its truthiness, which is all the subsequent
`if not tool_instance` test observes before `getattr(tool_instance,
action, None)` exposes the object's methods. -/
inductive ToolInstance where
  | cap (c : Capability)
  | attr (truthy : Bool)
deriving Repr, DecidableEq

/-- Python truthiness of a resolved `tool_instance` (the seven
capability objects are plain instances, hence truthy). -/
def instTruthy : ToolInstance → Bool
  | .cap _ => true
  | .attr t => t

/-- `getattr(self, name, None)` on a `TaskPlanner`.  The seven
`__init__` data attributes resolve to their capabilities; every other
name is looked up in the class-attribute surface `classAttr`, given as
a parameter because the full set (the methods defined by `TaskPlanner`
plus the dunders inherited from `object`) depends on the Python
version; `classAttr name = some t` means the name resolves to an
attribute of truthiness `t`, and `Option.none` means `AttributeError`,
i.e. the `getattr` default `None`.  The seven instance names do not
collide with any class attribute, so lookup order is immaterial. -/
def plannerGetattr (classAttr : String → Option Bool) (name : String) : Option ToolInstance :=
  if name = "system" then some (.cap .system)
  else if name = "files" then some (.cap .files)
  else if name = "browser" then some (.cap .browser)
  else if name = "input" then some (.cap .input)
  else if name = "safety" then some (.cap .safety)
  else if name = "ctx" then some (.cap .ctx)
  else if name = "llm" then some (.cap .llm)
  else (classAttr name).map (fun t => ToolInstance.attr t)

/-- The class-attribute surface of `TaskPlanner` as defined in
`task_planner.py`: its own methods, its docstring, module name and
instance-dict descriptor (all truthy), and `__weakref__`, which reads
as `None` on a fresh instance and is therefore falsy.  The further
special attributes inherited from `object` (e.g. `__class__`,
`__repr__`) are version-dependent and omitted: no theorem below asserts
anything about a name this map sends to `Option.none` — the general
theorem quantifies over the surface. -/
def classAttrSrc (name : String) : Option Bool :=
  if ["__init__", "execute_plan", "_resolve_references", "_generate_plan",
      "_run_tool", "__module__", "__doc__", "__dict__"].contains name then some true
  else if name = "__weakref__" then some false
  else Option.none

/-- Python `str.replace` for a non-empty pattern, on char lists; the
fuel argument bounds the scan (one unit per consumed character). -/
def replaceL (pat repl : List Char) : Nat → List Char → List Char
  | 0, s => s
  | _ + 1, [] => []
  | n + 1, c :: rest =>
    if pat.isPrefixOf (c :: rest) then
      repl ++ replaceL pat repl n ((c :: rest).drop pat.length)
    else
      c :: replaceL pat repl n rest

/-- Python `s.replace(pat, repl)`.  The patterns used by the planner are
never empty, so the empty-pattern case just returns the input. -/
def replaceSub (pat repl s : String) : String :=
  if pat.data.isEmpty then s
  else String.mk (replaceL pat.data repl.data s.data.length s.data)

/-- `tool_name.replace("_agent", "").replace("_controller", "")` from
`TaskPlanner._run_tool`. -/
def stripName (t : String) : String :=
  replaceSub "_controller" "" (replaceSub "_agent" "" t)

/-- The dispatch of `TaskPlanner._run_tool`: a `getattr` lookup of the
stripped tool name, overridden by the explicit four-name mapping for
`system_control`, `file_manager`, `browser_agent`, `input_controller`;
a lookup yielding nothing leaves `tool_instance = None` for the
truthiness test at the call site. -/
def resolveTool (classAttr : String → Option Bool) (tool_name : String) : Option ToolInstance :=
  let viaAttr := plannerGetattr classAttr (stripName tool_name)
  if tool_name = "system_control" then some (.cap .system)
  else if tool_name = "file_manager" then some (.cap .files)
  else if tool_name = "browser_agent" then some (.cap .browser)
  else if tool_name = "input_controller" then some (.cap .input)
  else viaAttr

/-- `TaskPlanner._run_tool`, parameterized by the planner's
class-attribute surface, by the truthiness of
`getattr(tool_instance, action, None)` (`hasAttr`) and by the behaviour
of the resolved method (`call`).  A falsy `tool_instance` — the
`getattr` default `None` or a falsy attribute — raises
`ValueError("Unknown tool: ...")`; a falsy action attribute raises
`ValueError("Unknown action: ... in ...")`; the messages are the
exceptions' `str`. -/
def run_tool (classAttr : String → Option Bool)
    (hasAttr : ToolInstance → String → Bool)
    (call : ToolInstance → String → List (String × String) → ToolOutcome)
    (tool_name action : String) (params : List (String × String)) : ToolOutcome :=
  match resolveTool classAttr tool_name with
  | Option.none => .raises ("Unknown tool: " ++ tool_name)
  | some inst =>
    if instTruthy inst = false then .raises ("Unknown tool: " ++ tool_name)
    else if hasAttr inst action then call inst action params
    else .raises ("Unknown action: " ++ action ++ " in " ++ tool_name)

/-- A sound under-approximation of the truthy attributes of the
capability instances whose modules are in the source tree: every name
listed is a method defined in the corresponding class
(`SystemControl`, `BrowserAgent`, `GroqLLM`), the underscore-prefixed
ones included.  Instance attributes set in their constructors and the
dunders inherited from `object` are omitted, as are the capabilities
whose modules are absent (`FileManager`, `InputController`,
`SafetyGuard`, `ContextManager`): no theorem below asserts that a name
this map sends to `false` is absent from the program — the general
theorem quantifies over the attribute surface. -/
def hasMethodSrc : ToolInstance → String → Bool
  | .cap .system, a =>
    ["__init__", "get_system_stats", "_get_battery", "launch_app",
     "_get_default_browser", "open_url", "play_spotify_song",
     "play_youtube_video", "close_app", "shutdown"].contains a
  | .cap .browser, a =>
    ["__init__", "_init_driver", "open_url", "click_element", "type_into",
     "close", "open_youtube_and_play", "open_spotify_web_and_play",
     "get_default_browser"].contains a
  | .cap .llm, a => ["__init__", "generate_response", "clear_context"].contains a
  | _, _ => false

/-- Lower-casing of a char list (Python `str.lower` on ASCII text). -/
def lowerL (cs : List Char) : List Char := cs.map Char.toLower

/-- Python `str.lower()`. -/
def lowerS (s : String) : String := String.mk (lowerL s.data)

/-- Python `str.strip()`: whitespace removed from both ends. -/
def trimS (s : String) : String :=
  String.mk (((s.data.dropWhile Char.isWhitespace).reverse.dropWhile Char.isWhitespace).reverse)

/-- Python truthiness of an optional string: `None` and `""` are falsy. -/
def truthy : Option String → Bool
  | Option.none => false
  | some s => !(s == "")

/-- Python `a or b` on optional strings, keeping `a` when truthy. -/
def orTruthy (a b : Option String) : Option String :=
  match a with
  | some s => if s == "" then b else some s
  | Option.none => b

/-- The priority chain of `_resolve_references`:
`ctx.get("last_modified_file") or ctx.get("last_opened_file") or
ctx.get("last_created_file")`. -/
def fileTarget (ctx : Ctx) : Option String :=
  orTruthy (ctxGet ctx "last_modified_file")
    (orTruthy (ctxGet ctx "last_opened_file") (ctxGet ctx "last_created_file"))

/-- A regex word character (`\w`): letters, digits, underscore. -/
def isWordChar (c : Char) : Bool := c.isAlpha || c.isDigit || c == '_'

/-- Case-insensitive literal prefix match of a pattern on a char list. -/
def ciPrefix : List Char → List Char → Bool
  | [], _ => true
  | _ :: _, [] => false
  | p :: ps, c :: cs => (Char.toLower p == Char.toLower c) && ciPrefix ps cs

/-- The `\b` condition on the left of a match: start of string or a
preceding non-word character (all patterns start with a word char). -/
def boundaryBefore : Option Char → Bool
  | Option.none => true
  | some c => !(isWordChar c)

/-- The `\b` condition on the right of a match: end of string or a
following non-word character (all patterns end with a word char). -/
def boundaryAfterOk : List Char → Bool
  | [] => true
  | c :: _ => !(isWordChar c)

/-- The alternative (tried in pattern order, as the regex engine does)
that matches at the current position with a right word boundary. -/
def wordSubMatch (pats : List (List Char)) (cs : List Char) : Option (List Char) :=
  pats.find? (fun p => ciPrefix p cs && boundaryAfterOk (cs.drop p.length))

/-- The scan of `re.sub(r'\b(p1|p2|...)\b', repl, text, flags=IGNORECASE)`
for word-delimited literal alternatives: at each position with a left
word boundary, the first alternative matching with a right boundary is
replaced and the scan resumes after the matched text. -/
def wordSubL (pats : List (List Char)) (repl : List Char) : Nat → Option Char → List Char → List Char
  | 0, _, s => s
  | _ + 1, _, [] => []
  | n + 1, prev, c :: rest =>
    match (if boundaryBefore prev then wordSubMatch pats (c :: rest) else Option.none) with
    | some p =>
      repl ++ wordSubL pats repl n ((c :: rest).take p.length).getLast? ((c :: rest).drop p.length)
    | Option.none => c :: wordSubL pats repl n (some c) rest

/-- String wrapper for the word-boundary substitution. -/
def wordSubS (pats : List String) (repl s : String) : String :=
  String.mk (wordSubL (pats.map String.data) repl.data s.data.length Option.none s.data)

/-- Rule 1 substitution of `_resolve_references`:
`re.sub(r'\b(it|that file|the file)\b', f'the file "{target_file}"', text,
flags=re.IGNORECASE)`. -/
def fileRuleSub (target text : String) : String :=
  wordSubS ["it", "that file", "the file"] ("the file \"" ++ target ++ "\"") text

/-- Rule 3 substitution of `_resolve_references`:
`re.sub(r'\b(that app)\b', f'{target_app}', text, flags=re.IGNORECASE)`. -/
def appRuleSub (app text : String) : String :=
  wordSubS ["that app"] app text

/-- Rules 2 and 3 of `_resolve_references` (the code-fix replacement and
the app-reference replacement), applied after rule 1; the trigger
conditions read the lower-cased original utterance. -/
def laterRules (tf ta : Option String) (lower text : String) : String :=
  let t2 :=
    if truthy tf && (containsSub "fix the code" lower || containsSub "modify the code" lower)
    then replaceSub "the code" ("the code in \"" ++ tf.getD "" ++ "\"") text
    else text
  if truthy ta && (containsSub "that app" lower || containsSub "close it" lower)
  then appRuleSub (ta.getD "") t2
  else t2

/-- `TaskPlanner._resolve_references`: pronoun and deictic rewriting
driven by the Context Store snapshot. -/
def resolve_references (text : String) (ctx : Ctx) : String :=
  let lower := lowerS text
  let tf := fileTarget ctx
  let ta := ctxGet ctx "last_opened_app"
  let t1 :=
    if truthy tf && (containsSub " it" lower || containsSub "that file" lower || containsSub "the file" lower)
    then fileRuleSub (tf.getD "") text
    else text
  laterRules tf ta lower t1

/-- Prefix test on strings via char lists (Python `str.startswith`). -/
def prefixS (p s : String) : Bool := p.data.isPrefixOf s.data

/-- The Synthesis engines of `handle_voice_session`. -/
inductive TTSEngine where
  | elevenLabs
  | edgeTTS
deriving Repr, DecidableEq

/-- The Generation engines of `handle_voice_session`. -/
inductive GenEngine where
  | groq
  | gemini
deriving Repr, DecidableEq

/-- The Synthesis binding of `handle_voice_session`: ElevenLabs only
when the key is truthy, longer than 10 characters and not a
`sk_placeholder...` value; a raising ElevenLabs constructor falls back
to EdgeTTS inside the surrounding `except`. -/
def selectSynthesis (key : Option String) (elInitRaises : Bool) : TTSEngine :=
  if truthy key && decide ((key.getD "").length > 10)
      && !(prefixS "sk_placeholder" (key.getD "")) then
    if elInitRaises then .edgeTTS else .elevenLabs
  else .edgeTTS

/-- The Generation binding of `handle_voice_session`: Groq only when
the key is truthy and longer than 20 characters; a raising Groq
constructor falls back to Gemini inside `except`. -/
def selectGeneration (key : Option String) (groqInitRaises : Bool) : GenEngine :=
  if truthy key && decide ((key.getD "").length > 20) then
    if groqInitRaises then .gemini else .groq
  else .gemini

/-- `transcript.strip().lower() in ["/start", "/hello", "/hi"]`, the
special-command test of `process_audio_buffer`. -/
def isSpecialCommand (t : String) : Bool :=
  let s := lowerS (trimS t)
  s == "/start" || s == "/hello" || s == "/hi"

/-- Where the user-facing response of one voice turn comes from. -/
inductive RespSource where
  | planner (result : String)
  | conversational
deriving Repr, DecidableEq

/-- The observable decision of `process_audio_buffer` for a non-empty
transcript: whether a `TaskPlanner` was constructed, and whether the
response is the plan result or the conversational LLM reply. -/
structure VoiceStep where
  plannerConstructed : Bool
  source : RespSource
deriving Repr, DecidableEq

/-- The outcome of an awaited fallible call: a raised exception with
its `str`, or a returned string. -/
inductive PlanCall where
  | raises (e : String)
  | returns (r : String)
deriving Repr, DecidableEq

/-- The planning attempt and fallback of `process_audio_buffer` for a
non-empty transcript: special commands skip the planner entirely;
otherwise the planner runs and its result is used unless it is falsy or
`NO_ACTION_REQUIRED` or the attempt raised, in which case the
conversational LLM answers. -/
def voiceDecision (transcript : String) (planCall : PlanCall) : VoiceStep :=
  if isSpecialCommand transcript then ⟨false, .conversational⟩
  else
    match planCall with
    | .raises _ => ⟨true, .conversational⟩
    | .returns r =>
      if !(r == "") && !(r == "NO_ACTION_REQUIRED") then ⟨true, .planner r⟩
      else ⟨true, .conversational⟩

/-- The fixed `/start` greeting of `GroqLLM.generate_response`, chosen
by the hour of day. -/
def groqStartGreeting (hour : Nat) : String :=
  if 5 ≤ hour ∧ hour < 12 then
    "Aur yaar, kesa hai? शुभ प्रभात! Good morning! Main yahi hu tere liye. Bata kya kaam hai? 😎"
  else if 12 ≤ hour ∧ hour < 17 then
    "Aur yaar, kesa hai? नमस्ते! Good afternoon! Main yahi hu tere liye. Bata kya kaam hai? 😎"
  else
    "Aur yaar, kesa hai? शुभ संध्या! Good evening! Main yahi hu tere liye. Bata kya kaam hai? 😎"

/-- Python truthiness of the optional `system_prompt` argument. -/
def sysPromptTruthy : Option String → Bool
  | Option.none => false
  | some s => !(s == "")

/-- The observables of one `GroqLLM.generate_response` call: the
returned text, the conversation memory afterwards, and whether the Groq
API was invoked. -/
structure GroqResult where
  response : String
  memoryAfter : List String
  apiCalled : Bool
deriving Repr, DecidableEq

/-- `GroqLLM.generate_response`.  The conversation memory is the list of
stored message texts (`ConversationMemory`, whose module is not in the
source tree, is modelled from the spec as a session-scoped rolling
history; `clear` empties it).  `apiReply` is the behaviour of
`self.client.chat.completions.create` when reached. -/
def groq_generate_response (systemPrompt : Option String) (userMessage : String)
    (hour : Nat) (memory : List String) (hasClient : Bool)
    (apiReply : PlanCall) : GroqResult :=
  if !(sysPromptTruthy systemPrompt) && lowerS (trimS userMessage) == "/start" then
    ⟨groqStartGreeting hour, [], false⟩
  else if !hasClient then
    ⟨"I apologize, but the Groq API key is missing. I've switched to Gemini for now. How can I help you?",
      memory, false⟩
  else
    let memory1 := if !(sysPromptTruthy systemPrompt) then memory ++ [userMessage] else memory
    match apiReply with
    | .raises e =>
      ⟨"I'm sorry, I'm having some trouble processing that right now. Error: " ++ e, memory1, true⟩
    | .returns t =>
      let resp := trimS t
      let memory2 := if !(sysPromptTruthy systemPrompt) then memory1 ++ [resp] else memory1
      ⟨resp, memory2, true⟩

/-- A parsed JSON value (`json.loads` output).  Numbers are rationals;
the distinction between Python ints and floats plays no role here. -/
inductive Json where
  | null
  | bool (b : Bool)
  | num (q : Rat)
  | str (s : String)
  | arr (elems : List Json)
  | obj (fields : List (String × Json))

/-- JSON whitespace. -/
def jsonWs (c : Char) : Bool := c == ' ' || c == '\t' || c == '\n' || c == '\r'

/-- Skip JSON whitespace. -/
def skipWs (cs : List Char) : List Char := cs.dropWhile jsonWs

/-- Value of one hex digit. -/
def hexVal (c : Char) : Option Nat :=
  if '0' ≤ c ∧ c ≤ '9' then some (c.toNat - '0'.toNat)
  else if 'a' ≤ c ∧ c ≤ 'f' then some (c.toNat - 'a'.toNat + 10)
  else if 'A' ≤ c ∧ c ≤ 'F' then some (c.toNat - 'A'.toNat + 10)
  else Option.none

/-- Body of a JSON string literal after the opening quote, with the
standard escapes; returns the decoded characters and the rest of the
input after the closing quote. -/
def parseStrBody : Nat → List Char → Option (List Char × List Char)
  | 0, _ => Option.none
  | _ + 1, [] => Option.none
  | n + 1, c :: rest =>
    if c == '"' then some ([], rest)
    else if c == '\\' then
      match rest with
      | [] => Option.none
      | e :: rest2 =>
        if e == 'u' then
          match rest2 with
          | h1 :: h2 :: h3 :: h4 :: rest3 =>
            (match hexVal h1, hexVal h2, hexVal h3, hexVal h4 with
             | some a, some b, some c2, some d =>
               (parseStrBody n rest3).map
                 (fun p => (Char.ofNat (((a * 16 + b) * 16 + c2) * 16 + d) :: p.1, p.2))
             | _, _, _, _ => Option.none)
          | _ => Option.none
        else
          match (if e == '"' then some '"'
                 else if e == '\\' then some '\\'
                 else if e == '/' then some '/'
                 else if e == 'b' then some (Char.ofNat 8)
                 else if e == 'f' then some (Char.ofNat 12)
                 else if e == 'n' then some '\n'
                 else if e == 'r' then some '\r'
                 else if e == 't' then some '\t'
                 else Option.none) with
          | some ch => (parseStrBody n rest2).map (fun p => (ch :: p.1, p.2))
          | Option.none => Option.none
    else if c.toNat < 32 then Option.none
    else (parseStrBody n rest).map (fun p => (c :: p.1, p.2))

/-- Decimal value of a digit list. -/
def digitsToNat (ds : List Char) : Nat :=
  ds.foldl (fun a c => a * 10 + (c.toNat - '0'.toNat)) 0

/-- A JSON number at the head of the input: optional minus, integer part
without a superfluous leading zero, optional fraction and exponent. -/
def parseNumber (cs : List Char) : Option (Rat × List Char) :=
  let neg := cs.headD ' ' == '-'
  let cs1 := if neg then cs.drop 1 else cs
  let ids := cs1.takeWhile Char.isDigit
  let cs2 := cs1.dropWhile Char.isDigit
  if ids.isEmpty then Option.none
  else if 1 < ids.length && ids.headD '0' == '0' then Option.none
  else
    let hasFrac := cs2.headD ' ' == '.'
    let fds := if hasFrac then (cs2.drop 1).takeWhile Char.isDigit else []
    let cs3 := if hasFrac then (cs2.drop 1).dropWhile Char.isDigit else cs2
    if hasFrac && fds.isEmpty then Option.none
    else
      let hasExp := cs3.headD ' ' == 'e' || cs3.headD ' ' == 'E'
      let csE := cs3.drop 1
      let expNeg := hasExp && csE.headD ' ' == '-'
      let csE2 := if hasExp && (csE.headD ' ' == '-' || csE.headD ' ' == '+') then csE.drop 1 else csE
      let eds := if hasExp then csE2.takeWhile Char.isDigit else []
      let cs4 := if hasExp then csE2.dropWhile Char.isDigit else cs3
      if hasExp && eds.isEmpty then Option.none
      else
        let sign : Int := if neg then -1 else 1
        let mant : Rat := ((sign * Int.ofNat (digitsToNat (ids ++ fds))) : Int)
        let expo : Int := (if expNeg then -(Int.ofNat (digitsToNat eds)) else Int.ofNat (digitsToNat eds))
          - Int.ofNat fds.length
        let scale : Rat := if 0 ≤ expo then (10 : Rat) ^ expo.toNat else ((10 : Rat) ^ (-expo).toNat)⁻¹
        some (mant * scale, cs4)

/-- Parser mode: a value, the elements of an array after `[`, or the
fields of an object after the opening brace. -/
inductive PMode where
  | val
  | arrElems
  | objFields

/-- Recursive-descent JSON parser; the fuel bounds nesting and is chosen
large enough in `json_loads` that it never runs out on real input. -/
def parseF : Nat → PMode → List Char → Option (Json × List Char)
  | 0, _, _ => Option.none
  | n + 1, .val, cs =>
    match skipWs cs with
    | 'n' :: 'u' :: 'l' :: 'l' :: rest => some (.null, rest)
    | 't' :: 'r' :: 'u' :: 'e' :: rest => some (.bool true, rest)
    | 'f' :: 'a' :: 'l' :: 's' :: 'e' :: rest => some (.bool false, rest)
    | '"' :: rest => (parseStrBody (rest.length + 1) rest).map (fun p => (.str (String.mk p.1), p.2))
    | '[' :: rest =>
      (match skipWs rest with
       | ']' :: r2 => some (.arr [], r2)
       | r1 => parseF n .arrElems r1)
    | '\x7b' :: rest =>
      (match skipWs rest with
       | '\x7d' :: r2 => some (.obj [], r2)
       | r1 => parseF n .objFields r1)
    | other => (parseNumber other).map (fun p => (.num p.1, p.2))
  | n + 1, .arrElems, cs =>
    match parseF n .val cs with
    | Option.none => Option.none
    | some (v, r) =>
      match skipWs r with
      | ',' :: r2 =>
        (match parseF n .arrElems r2 with
         | some (.arr tail, r3) => some (.arr (v :: tail), r3)
         | _ => Option.none)
      | ']' :: r2 => some (.arr [v], r2)
      | _ => Option.none
  | n + 1, .objFields, cs =>
    match skipWs cs with
    | '"' :: rest =>
      (match parseStrBody (rest.length + 1) rest with
       | Option.none => Option.none
       | some (key, r) =>
         match skipWs r with
         | ':' :: r2 =>
           (match parseF n .val r2 with
            | Option.none => Option.none
            | some (v, r3) =>
              match skipWs r3 with
              | ',' :: r5 =>
                (match parseF n .objFields r5 with
                 | some (.obj tail, r6) => some (.obj ((String.mk key, v) :: tail), r6)
                 | _ => Option.none)
              | '\x7d' :: r5 => some (.obj [(String.mk key, v)], r5)
              | _ => Option.none)
         | _ => Option.none)
    | _ => Option.none

/-- `json.loads`: parse one value and require only whitespace after it. -/
def json_loads (s : String) : Option Json :=
  match parseF (2 * s.data.length + 4) .val s.data with
  | some (v, rest) => if (skipWs rest).isEmpty then some v else Option.none
  | Option.none => Option.none

/-- Markdown stripping and trimming of `_generate_plan`:
`response_text.replace("```json", "").replace("```", "").strip()`. -/
def clean1 (text : String) : String :=
  trimS (replaceSub "```" "" (replaceSub "```json" "" text))

/-- Brace extraction of `_generate_plan`: the substring from the first
opening brace to the last closing brace inclusive, when both occur,
otherwise the text unchanged. -/
def recoverBraces (s : String) : String :=
  let cs := s.data
  match cs.findIdx? (fun c => c == '\x7b'), cs.reverse.findIdx? (fun c => c == '\x7d') with
  | some st, some jr =>
    let en := cs.length - 1 - jr
    String.mk ((cs.take (en + 1)).drop st)
  | _, _ => s

/-- The empty-plan signal tagged as an error,
`{"steps": [], "_error": True}`. -/
def planErrorSignal : Json :=
  Json.obj [("steps", Json.arr []), ("_error", Json.bool true)]

/-- `TaskPlanner._generate_plan`, as a function of the bound engine:
`Option.none` models a planner with no LLM client; otherwise the engine
call either raises or returns text, which goes through markdown
stripping, brace extraction and `json.loads`; any failure inside the
`try` block yields the tagged empty-plan signal, and there is a single
engine call (no retry). -/
def generate_plan (llm : Option PlanCall) : Json :=
  match llm with
  | Option.none => Json.obj [("steps", Json.arr [])]
  | some (.raises _) => planErrorSignal
  | some (.returns text) =>
    match json_loads (recoverBraces (clean1 text)) with
    | some v => v
    | Option.none => planErrorSignal

/-- A gate that rejects `file_manager` steps with the spec's example
reason and admits everything else. -/
def vDemo : Safety := fun tool _ =>
  if tool == "file_manager" then (false, "path outside allowed directories") else (true, "")

/-- A gate that admits every step. -/
def vOk : Safety := fun _ _ => (true, "")

/-- Tools that succeed with a `(True, "did <action>")` tuple. -/
def rDemo : RunTool := fun _ action _ => .ok (.tupleRes [.b true, .s ("did " ++ action)])

/-- A tool whose success message contains the substring `"True"`. -/
def rTrue : RunTool := fun _ _ _ => .ok (.tupleRes [.b true, .s "True story"])

/-- The spec's executor scenario: `write_file` answers
`(True, "Created x.txt")` and every other action `(True, "")`. -/
def rScenario : RunTool := fun _ action _ =>
  if action == "write_file" then .ok (.tupleRes [.b true, .s "Created x.txt"])
  else .ok (.tupleRes [.b true, .s ""])

/-- A resolved-method call that returns a fixed string result. -/
def callDemo : ToolInstance → String → List (String × String) → ToolOutcome :=
  fun _ _ _ => .ok (.strRes "ok")

/-- Sample plan steps. -/
def stA : PlanStep := ⟨"system_control", "launch_app", [("app_name", "notepad")]⟩

def stB : PlanStep := ⟨"file_manager", "write_file", [("path", "E:/x.txt")]⟩

def stC : PlanStep := ⟨"system_control", "open_url", [("url", "example.com")]⟩

/-- Sample context snapshots. -/
def ctxDemo : Ctx := [("last_opened_file", "notes.txt")]

def ctxIt : Ctx := [("last_modified_file", "a.txt")]

/-- When every step of a list passes, the loop finishes with exactly the
retained messages in step order and the fully interleaved trace. -/
lemma execLoop_all_pass (v : Safety) (r : RunTool) :
    ∀ (steps : List PlanStep) (i : Nat),
    (∀ s ∈ steps, stepPasses v r s = true) →
    execLoop v r steps i = .finished (steps.filterMap (keptMsgOf r)) (fullTrace steps i) := by
  intro steps
  induction steps with
  | nil => intro i _; rfl
  | cons s rest ih =>
    intro i h
    have hs : stepPasses v r s = true := h s (List.mem_cons_self s rest)
    have hrest : ∀ x ∈ rest, stepPasses v r x = true := by
      intro x hx; exact h x (List.mem_cons_of_mem s hx)
    unfold stepPasses at hs
    rw [Bool.and_eq_true] at hs
    obtain ⟨hsafe, hok⟩ := hs
    unfold execLoop
    simp only [hsafe]
    cases hres : r s.tool s.action s.params with
    | raises e => rw [hres] at hok; simp [ToolOutcome.isOk] at hok
    | ok res =>
      simp only []
      rw [ih (i + 1) hrest]
      simp only [List.filterMap, fullTrace, keptMsgOf, hres]
      cases hkeep : keepMsg (extractMsg res) <;> simp [hkeep]

/-- When every step before some step passes and that step is rejected by
the Safety Gate, the loop aborts with the rejection message; its trace
validates and executes each earlier step in order, then validates the
rejected step, and contains nothing else. -/
lemma execLoop_first_reject (v : Safety) (r : RunTool) (s : PlanStep)
    (hrej : (v s.tool s.params).1 = false) :
    ∀ (pre post : List PlanStep) (i : Nat),
    (∀ x ∈ pre, stepPasses v r x = true) →
    execLoop v r (pre ++ s :: post) i =
      .aborted ("I couldn't complete the task because: " ++ (v s.tool s.params).2)
        (fullTrace pre i ++ [Event.validate (i + pre.length) s.tool]) := by
  intro pre
  induction pre with
  | nil =>
    intro post i _
    unfold execLoop
    simp [hrej, fullTrace]
  | cons x rest ih =>
    intro post i h
    have hx : stepPasses v r x = true := h x (List.mem_cons_self x rest)
    have hrest : ∀ y ∈ rest, stepPasses v r y = true := by
      intro y hy; exact h y (List.mem_cons_of_mem x hy)
    unfold stepPasses at hx
    rw [Bool.and_eq_true] at hx
    obtain ⟨hsafe, hok⟩ := hx
    show execLoop v r (x :: (rest ++ s :: post)) i = _
    unfold execLoop
    simp only [hsafe]
    cases hres : r x.tool x.action x.params with
    | raises e => rw [hres] at hok; simp [ToolOutcome.isOk] at hok
    | ok res =>
      simp only []
      rw [ih post (i + 1) hrest]
      have harith : i + 1 + rest.length = i + (rest.length + 1) := by omega
      simp [fullTrace, harith]

/-- When every step before some step passes, that step passes the gate,
and its tool call raises, the loop aborts with the execution-error
message after validating and executing the failing step. -/
lemma execLoop_first_error (v : Safety) (r : RunTool) (s : PlanStep) (e : String)
    (hsafe : (v s.tool s.params).1 = true)
    (herr : r s.tool s.action s.params = .raises e) :
    ∀ (pre post : List PlanStep) (i : Nat),
    (∀ x ∈ pre, stepPasses v r x = true) →
    execLoop v r (pre ++ s :: post) i =
      .aborted ("Error executing step " ++ s.action ++ ": " ++ e)
        (fullTrace pre i ++ [Event.validate (i + pre.length) s.tool,
          Event.execute (i + pre.length) s.tool s.action]) := by
  intro pre
  induction pre with
  | nil =>
    intro post i _
    unfold execLoop
    simp [hsafe, herr, fullTrace]
  | cons x rest ih =>
    intro post i h
    have hx : stepPasses v r x = true := h x (List.mem_cons_self x rest)
    have hrest : ∀ y ∈ rest, stepPasses v r y = true := by
      intro y hy; exact h y (List.mem_cons_of_mem x hy)
    unfold stepPasses at hx
    rw [Bool.and_eq_true] at hx
    obtain ⟨hxsafe, hxok⟩ := hx
    show execLoop v r (x :: (rest ++ s :: post)) i = _
    unfold execLoop
    simp only [hxsafe]
    cases hres : r x.tool x.action x.params with
    | raises e2 => rw [hres] at hxok; simp [ToolOutcome.isOk] at hxok
    | ok res =>
      simp only []
      rw [ih post (i + 1) hrest]
      have harith : i + 1 + rest.length = i + (rest.length + 1) := by omega
      simp [fullTrace, harith]

/-- Looking a key up after rewriting the entry of a different key leaves
the result unchanged. -/
lemma ctxGet_map_set (k v k2 : String) (h : k2 ≠ k) :
    ∀ ctx : Ctx,
    ctxGet (ctx.map (fun p => if p.1 = k then (k, v) else p)) k2 = ctxGet ctx k2 := by
  intro ctx
  induction ctx with
  | nil => rfl
  | cons p rest ih =>
    simp only [List.map_cons]
    by_cases hp : p.1 = k
    · have hf : (if p.1 = k then (k, v) else p) = (k, v) := if_pos hp
      rw [hf]
      simp only [ctxGet, List.find?]
      have h1 : (decide ((k, v).1 = k2)) = false := by simp [Ne.symm h]
      have h2 : (decide (p.1 = k2)) = false := by simp [hp, Ne.symm h]
      rw [h1, h2]
      exact ih
    · have hf : (if p.1 = k then (k, v) else p) = p := if_neg hp
      rw [hf]
      simp only [ctxGet, List.find?]
      cases h2 : decide (p.1 = k2) with
      | true => rfl
      | false => exact ih

/-- Appending an entry for a different key does not change a lookup. -/
lemma ctxGet_append_single_ne (k v k2 : String) (h : k2 ≠ k) :
    ∀ ctx : Ctx, ctxGet (ctx ++ [(k, v)]) k2 = ctxGet ctx k2 := by
  intro ctx
  induction ctx with
  | nil =>
    simp only [List.nil_append, ctxGet, List.find?]
    have h1 : (decide ((k, v).1 = k2)) = false := by simp [Ne.symm h]
    rw [h1]
  | cons p rest ih =>
    simp only [List.cons_append, ctxGet, List.find?]
    cases h2 : decide (p.1 = k2) with
    | true => rfl
    | false => exact ih

/-- Merging a single field into the Context Store never changes the
value of any other field. -/
lemma ctxGet_update_single_ne (ctx : Ctx) (k v k2 : String) (h : k2 ≠ k) :
    ctxGet (update_context ctx [(k, v)]) k2 = ctxGet ctx k2 := by
  show ctxGet (ctxSet ctx k v) k2 = ctxGet ctx k2
  unfold ctxSet
  by_cases hany : ctx.any (fun p => p.1 = k)
  · rw [if_pos hany]
    exact ctxGet_map_set k v k2 h ctx
  · rw [if_neg hany]
    exact ctxGet_append_single_ne k v k2 h ctx

/-- C1: in `TaskPlanner.execute_plan`, when every step before a
gate-rejected step passes, the run's trace validates then executes each
earlier step exactly once, in plan order, with each validation before
the corresponding execution, then validates the rejected step; nothing
after the rejected step is validated or executed, the rejected step's
tool never runs, and the already-performed executions stay in the trace
(no rollback). -/
theorem safety_gate_validates_in_order_and_aborts (v : Safety) (r : RunTool) (ctx : Ctx)
    (pre post : List PlanStep) (s : PlanStep)
    (hpre : ∀ x ∈ pre, stepPasses v r x = true)
    (hrej : (v s.tool s.params).1 = false) :
    (execute_plan v r (pre ++ s :: post) ctx).trace =
      fullTrace pre 0 ++ [Event.validate pre.length s.tool] := by
  unfold execute_plan
  rw [execLoop_first_reject v r s hrej pre post 0 hpre]
  have hne : (pre ++ s :: post).isEmpty = false := by cases pre <;> rfl
  simp [hne]

/-- Witness for C1: the three-step demo plan whose second step is
rejected by the gate. -/
theorem safety_gate_validates_in_order_and_aborts_witness :
    (execute_plan vDemo rDemo [stA, stB, stC] []).trace =
      fullTrace [stA] 0 ++ [Event.validate 1 "file_manager"] := by
  have h := safety_gate_validates_in_order_and_aborts vDemo rDemo [] [stA] [stC] stB
    (by decide) (by decide)
  exact h

/-- C2 counterexample: on the spec's own scenario the string returned by
`execute_plan` is not the bare rejection reason; the code prefixes
`"I couldn't complete the task because: "`. -/
theorem rejection_reason_not_verbatim_cex :
    (execute_plan vDemo rDemo [stA, stB, stC] []).response ≠ "path outside allowed directories"
    ∧ (execute_plan vDemo rDemo [stA, stB, stC] []).response =
        "I couldn't complete the task because: path outside allowed directories" := by
  decide

/-- C2 (amended): for every plan whose first gate-rejected step is
rejected with reason `r`, the returned response is exactly
`"I couldn't complete the task because: " ++ r`. -/
theorem rejection_response_prefixed (v : Safety) (r : RunTool) (ctx : Ctx)
    (pre post : List PlanStep) (s : PlanStep)
    (hpre : ∀ x ∈ pre, stepPasses v r x = true)
    (hrej : (v s.tool s.params).1 = false) :
    (execute_plan v r (pre ++ s :: post) ctx).response =
      "I couldn't complete the task because: " ++ (v s.tool s.params).2 := by
  unfold execute_plan
  rw [execLoop_first_reject v r s hrej pre post 0 hpre]
  have hne : (pre ++ s :: post).isEmpty = false := by cases pre <;> rfl
  simp [hne]

/-- Witness for C2's amended theorem on a one-step rejected plan. -/
theorem rejection_response_prefixed_witness :
    (execute_plan vDemo rDemo [stB] []).response =
      "I couldn't complete the task because: " ++ "path outside allowed directories" := by
  have h := rejection_response_prefixed vDemo rDemo [] [] [] stB (by simp) (by decide)
  exact h

/-- C3 counterexample: a plan whose only step passes the gate and
returns `(True, "True story")` — a non-empty message — yields the
summary `"Done."` rather than that message, because `execute_plan`
also discards any message containing the substrings `"True"` or
`"False"`. -/
theorem retained_message_filter_cex :
    stepPasses vOk rTrue stA = true
    ∧ extractMsg (StepRes.tupleRes [PyPrim.b true, PyPrim.s "True story"]) = "True story"
    ∧ "True story" ≠ ""
    ∧ (execute_plan vOk rTrue [stA] []).response = "Done."
    ∧ (execute_plan vOk rTrue [stA] []).response ≠ "True story" := by
  decide

/-- C3 (amended): over a non-empty plan whose steps all pass the gate
and execute without raising, bare booleans, short tuples and empty
messages contribute nothing, non-empty messages that do not contain the
substrings `"True"` or `"False"` are retained in step order, and the
response is `"Done."` when nothing was retained and otherwise the
retained messages joined with `" and "`; every step is validated and
executed, in plan order. -/
theorem executor_summary_of_passing_plan (v : Safety) (r : RunTool) (ctx : Ctx)
    (steps : List PlanStep) (hne : steps ≠ [])
    (hall : ∀ x ∈ steps, stepPasses v r x = true) :
    (execute_plan v r steps ctx).response =
      (if (steps.filterMap (keptMsgOf r)).isEmpty then "Done."
       else String.intercalate " and " (steps.filterMap (keptMsgOf r)))
    ∧ (execute_plan v r steps ctx).trace = fullTrace steps 0 := by
  unfold execute_plan
  rw [execLoop_all_pass v r steps 0 hall]
  have hne2 : steps.isEmpty = false := by
    cases steps with
    | nil => exact absurd rfl hne
    | cons a l => rfl
  simp [hne2]

/-- Witness for C3's amended theorem: the spec's executor scenario,
`write_file → (True, "Created x.txt")` then an action answering
`(True, "")`, summarizes to `"Created x.txt"`. -/
theorem executor_summary_of_passing_plan_witness :
    (execute_plan vOk rScenario [stB, stC] []).response = "Created x.txt" := by
  have h := executor_summary_of_passing_plan vOk rScenario [] [stB, stC] (by decide) (by decide)
  rw [h.1]
  decide

/-- C7 counterexample: a plan aborted by the Safety Gate leaves the
Context Store untouched — no `last_task_summary` is merged, contrary to
the claim that completion by abort also merges. -/
theorem no_merge_on_safety_abort_cex :
    (execute_plan vDemo rDemo [stB] ctxDemo).ctx = ctxDemo
    ∧ ctxGet (execute_plan vDemo rDemo [stB] ctxDemo).ctx "last_task_summary" = Option.none := by
  decide

/-- C7 (amended): the Context Store is merged with `last_task_summary`
exactly when the whole plan was executed: a non-empty all-passing plan
merges the summary and leaves every other field unchanged, while a
gate-rejected run, a run aborted by a raising tool, and an empty plan
all leave the store exactly as it was. -/
theorem context_merge_exactly_on_full_success (v : Safety) (r : RunTool) (ctx : Ctx) :
    (∀ steps : List PlanStep, steps ≠ [] → (∀ x ∈ steps, stepPasses v r x = true) →
        (execute_plan v r steps ctx).ctx =
          update_context ctx [("last_task_summary", (execute_plan v r steps ctx).response)]
        ∧ ∀ k2 : String, k2 ≠ "last_task_summary" →
            ctxGet (execute_plan v r steps ctx).ctx k2 = ctxGet ctx k2)
    ∧ (∀ (pre post : List PlanStep) (s : PlanStep),
        (∀ x ∈ pre, stepPasses v r x = true) → (v s.tool s.params).1 = false →
        (execute_plan v r (pre ++ s :: post) ctx).ctx = ctx)
    ∧ (∀ (pre post : List PlanStep) (s : PlanStep) (e : String),
        (∀ x ∈ pre, stepPasses v r x = true) → (v s.tool s.params).1 = true →
        r s.tool s.action s.params = .raises e →
        (execute_plan v r (pre ++ s :: post) ctx).ctx = ctx)
    ∧ (execute_plan v r [] ctx).ctx = ctx := by
  refine ⟨?_, ?_, ?_, rfl⟩
  · intro steps hne hall
    unfold execute_plan
    rw [execLoop_all_pass v r steps 0 hall]
    have hne2 : steps.isEmpty = false := by
      cases steps with
      | nil => exact absurd rfl hne
      | cons a l => rfl
    simp only [hne2, Bool.false_eq_true, if_neg, ite_false]
    constructor
    · trivial
    · intro k2 hk2
      exact ctxGet_update_single_ne ctx _ _ k2 hk2
  · intro pre post s hpre hrej
    unfold execute_plan
    rw [execLoop_first_reject v r s hrej pre post 0 hpre]
    have hne : (pre ++ s :: post).isEmpty = false := by cases pre <;> rfl
    simp [hne]
  · intro pre post s e hpre hsafe herr
    unfold execute_plan
    rw [execLoop_first_error v r s e hsafe herr pre post 0 hpre]
    have hne : (pre ++ s :: post).isEmpty = false := by cases pre <;> rfl
    simp [hne]

/-- Witness for C7's amended theorem: an all-passing one-step plan
merges `last_task_summary` into the demo context. -/
theorem context_merge_exactly_on_full_success_witness :
    (execute_plan vOk rDemo [stA] ctxDemo).ctx =
      update_context ctxDemo
        [("last_task_summary", (execute_plan vOk rDemo [stA] ctxDemo).response)] := by
  exact ((context_merge_exactly_on_full_success vOk rDemo ctxDemo).1 [stA]
    (by decide) (by decide)).1

/-- C4 counterexample: `_run_tool` is not a closed four-name table.  Its
`getattr`-based first lookup also resolves tool names that merely match
attributes of the planner object — `"safety"` reaches the `SafetyGuard`
instance, `"llm"` reaches the LLM client, whose `generate_response`
method is then callable, and even the planner's own class attributes
such as `"execute_plan"` and `"__dict__"` resolve to truthy objects
rather than raising `Unknown tool` — though none of these names is
among `system_control`, `file_manager`, `browser_agent`,
`input_controller`. -/
theorem dispatch_reaches_non_table_attributes_cex :
    resolveTool classAttrSrc "safety" = some (ToolInstance.cap Capability.safety)
    ∧ resolveTool classAttrSrc "llm" = some (ToolInstance.cap Capability.llm)
    ∧ resolveTool classAttrSrc "execute_plan" = some (ToolInstance.attr true)
    ∧ resolveTool classAttrSrc "__dict__" = some (ToolInstance.attr true)
    ∧ run_tool classAttrSrc hasMethodSrc callDemo "llm" "generate_response" []
        = .ok (.strRes "ok")
    ∧ ("llm" ≠ "system_control" ∧ "llm" ≠ "file_manager"
        ∧ "llm" ≠ "browser_agent" ∧ "llm" ≠ "input_controller")
    ∧ ("safety" ≠ "system_control" ∧ "safety" ≠ "file_manager"
        ∧ "safety" ≠ "browser_agent" ∧ "safety" ≠ "input_controller")
    ∧ ("execute_plan" ≠ "system_control" ∧ "execute_plan" ≠ "file_manager"
        ∧ "execute_plan" ≠ "browser_agent" ∧ "execute_plan" ≠ "input_controller") := by
  decide

/-- C4 (amended): dispatch resolves the four table names to their
capabilities but additionally resolves, via `getattr` after stripping
`"_agent"` and `"_controller"`, any tool name matching an attribute of
the planner object — the seven `__init__` data attributes (`system`,
`files`, `browser`, `input`, `safety`, `ctx`, `llm`) and its class
attributes (its own methods and inherited special attributes), so
dispatch is open-ended reflection, not a closed table.  A tool name
resolving to nothing, or to a falsy attribute, raises `Unknown tool`; a
truthy resolved object whose requested action attribute is falsy raises
`Unknown action`; and an unresolvable tool name inside a plan aborts
the remaining steps with the error surfaced in the response. -/
theorem dispatch_resolution_characterized :
    (∀ (ca : String → Option Bool) (t : String), resolveTool ca t = Option.none ↔
      (t ≠ "system_control" ∧ t ≠ "file_manager" ∧ t ≠ "browser_agent"
        ∧ t ≠ "input_controller"
        ∧ stripName t ≠ "system" ∧ stripName t ≠ "files" ∧ stripName t ≠ "browser"
        ∧ stripName t ≠ "input" ∧ stripName t ≠ "safety" ∧ stripName t ≠ "ctx"
        ∧ stripName t ≠ "llm" ∧ ca (stripName t) = Option.none))
    ∧ (∀ (ca : String → Option Bool) (hm : ToolInstance → String → Bool)
        (call : ToolInstance → String → List (String × String) → ToolOutcome)
        (t a : String) (p : List (String × String)),
        (resolveTool ca t = Option.none ∨ resolveTool ca t = some (ToolInstance.attr false)) →
        run_tool ca hm call t a p = .raises ("Unknown tool: " ++ t))
    ∧ (∀ (ca : String → Option Bool) (hm : ToolInstance → String → Bool)
        (call : ToolInstance → String → List (String × String) → ToolOutcome)
        (t a : String) (p : List (String × String)) (inst : ToolInstance),
        resolveTool ca t = some inst → instTruthy inst = true → hm inst a = false →
        run_tool ca hm call t a p = .raises ("Unknown action: " ++ a ++ " in " ++ t))
    ∧ (∀ (ca : String → Option Bool) (hm : ToolInstance → String → Bool)
        (call : ToolInstance → String → List (String × String) → ToolOutcome)
        (v : Safety) (ctx : Ctx) (pre post : List PlanStep) (s : PlanStep),
        (∀ x ∈ pre, stepPasses v (run_tool ca hm call) x = true) →
        (v s.tool s.params).1 = true →
        resolveTool ca s.tool = Option.none →
        (execute_plan v (run_tool ca hm call) (pre ++ s :: post) ctx).response =
          "Error executing step " ++ s.action ++ ": " ++ ("Unknown tool: " ++ s.tool)
        ∧ (execute_plan v (run_tool ca hm call) (pre ++ s :: post) ctx).trace =
            fullTrace pre 0 ++ [Event.validate pre.length s.tool,
              Event.execute pre.length s.tool s.action]) := by
  refine ⟨?_, ?_, ?_, ?_⟩
  · intro ca t
    unfold resolveTool plannerGetattr
    split_ifs with h1 h2 h3 h4 h5 h6 h7 h8 h9 h10 h11 <;>
      simp_all [Option.map_eq_none']
  · intro ca hm call t a p hbad
    cases hbad with
    | inl hnone =>
      unfold run_tool
      rw [hnone]
    | inr hfalsy =>
      unfold run_tool
      rw [hfalsy]
      rfl
  · intro ca hm call t a p inst hinst htru hm2
    unfold run_tool
    rw [hinst]
    simp [htru, hm2]
  · intro ca hm call v ctx pre post s hpre hsafe hnone
    have herr : run_tool ca hm call s.tool s.action s.params =
        .raises ("Unknown tool: " ++ s.tool) := by
      unfold run_tool
      rw [hnone]
    have h := execLoop_first_error v (run_tool ca hm call) s ("Unknown tool: " ++ s.tool)
      hsafe herr pre post 0 hpre
    unfold execute_plan
    rw [h]
    have hne : (pre ++ s :: post).isEmpty = false := by cases pre <;> rfl
    simp [hne]

/-- Witness for C4's amended theorem: the unresolvable tool name
`"spotify"` aborts a one-step plan with the surfaced error. -/
theorem dispatch_resolution_characterized_witness :
    (execute_plan vOk (run_tool classAttrSrc hasMethodSrc callDemo)
        [⟨"spotify", "play", []⟩] []).response =
      "Error executing step " ++ "play" ++ ": " ++ ("Unknown tool: " ++ "spotify") := by
  exact (dispatch_resolution_characterized.2.2.2 classAttrSrc hasMethodSrc callDemo vOk
    [] [] [] ⟨"spotify", "play", []⟩ (by simp) (by decide) (by decide)).1

/-- C5 counterexample: the engine output `"[]"` contains no opening
brace, yet `_generate_plan` does not return the tagged empty-plan
signal — the text parses as JSON after the (vacuous) recovery step and
the parsed array is returned as the plan. -/
theorem generate_plan_parse_success_without_braces_cex :
    containsSub "\x7b" "[]" = false
    ∧ generate_plan (some (.returns "[]")) = Json.arr []
    ∧ generate_plan (some (.returns "[]")) ≠ planErrorSignal := by
  refine ⟨by decide, rfl, ?_⟩
  intro h
  have h2 : Json.arr [] = Json.obj [("steps", Json.arr []), ("_error", Json.bool true)] := h
  exact Json.noConfusion h2

/-- C5 (amended): whenever the text still fails to parse after
stripping code-fence markers and taking the substring from the first
opening to the last closing brace — and whenever the engine call itself
raises — `_generate_plan` returns `{"steps": [], "_error": True}`; the
model is a total function of a single engine call, so no exception
propagates and no retry occurs.  (Output with no brace or unbalanced
braces that nevertheless parses is returned as parsed.) -/
theorem generate_plan_failure_yields_error_signal :
    (∀ text : String, json_loads (recoverBraces (clean1 text)) = Option.none →
      generate_plan (some (.returns text)) = planErrorSignal)
    ∧ (∀ e : String, generate_plan (some (.raises e)) = planErrorSignal) := by
  constructor
  · intro text h
    have hred : generate_plan (some (.returns text)) =
        match json_loads (recoverBraces (clean1 text)) with
        | some v => v
        | Option.none => planErrorSignal := rfl
    rw [hred, h]
  · intro e
    rfl

/-- Witness for C5's amended theorem on a non-JSON engine output. -/
theorem generate_plan_failure_yields_error_signal_witness :
    generate_plan (some (.returns "not a plan")) = planErrorSignal := by
  exact generate_plan_failure_yields_error_signal.1 "not a plan" (by rfl)

/-- C6 counterexample: a placeholder-shaped credential longer than 20
characters binds the Groq primary for Generation — the placeholder test
exists only on the Synthesis side, which rejects the very same value. -/
theorem generation_placeholder_key_binds_primary_cex :
    prefixS "sk_placeholder" "sk_placeholder_123456789" = true
    ∧ ("sk_placeholder_123456789" : String).length > 20
    ∧ selectGeneration (some "sk_placeholder_123456789") false = GenEngine.groq
    ∧ selectSynthesis (some "sk_placeholder_123456789") false = TTSEngine.edgeTTS := by
  decide

/-- C6 (amended): per session, ElevenLabs is bound iff its key is
truthy, longer than 10 characters, not an `sk_placeholder...` value and
its constructor does not raise, else EdgeTTS; Groq is bound iff its key
is truthy and longer than 20 characters and its constructor does not
raise — with no placeholder test — else Gemini. -/
theorem engine_selection_characterized (key : Option String) (rEl rGq : Bool) :
    (selectSynthesis key rEl = TTSEngine.elevenLabs ↔
      (truthy key = true ∧ (key.getD "").length > 10
        ∧ prefixS "sk_placeholder" (key.getD "") = false ∧ rEl = false))
    ∧ (selectGeneration key rGq = GenEngine.groq ↔
      (truthy key = true ∧ (key.getD "").length > 20 ∧ rGq = false)) := by
  constructor
  · unfold selectSynthesis
    cases rEl <;> split_ifs with h <;>
      simp_all [Bool.and_eq_true, decide_eq_true_eq, Bool.not_eq_true']
  · unfold selectGeneration
    cases rGq <;> split_ifs with h <;>
      simp_all [Bool.and_eq_true, decide_eq_true_eq]

/-- C8 counterexample: with a file target set, the utterance `"it"` —
a whole-word occurrence of "it" at the very start — is returned
unchanged, because the trigger test looks for the two-character
substring `" it"` in the lower-cased text, which an initial "it" does
not satisfy. -/
theorem leading_it_not_resolved_cex :
    truthy (fileTarget ctxIt) = true
    ∧ resolve_references "it" ctxIt = "it"
    ∧ resolve_references "it" ctxIt ≠ "the file \"a.txt\"" := by
  decide

/-- C8 (amended): with a file target set (in the priority
`last_modified_file`, `last_opened_file`, `last_created_file`), when the
lower-cased utterance contains `" it"` (space before "it"), `"that
file"` or `"the file"`, the result is the word-boundary substitution of
`it`/`that file`/`the file` by `the file "<value>"` over the whole
utterance, followed by the code-fix and app rules; an "it" at the very
start triggers nothing by itself. -/
theorem file_reference_rewrite_on_trigger (text : String) (ctx : Ctx)
    (htf : truthy (fileTarget ctx) = true)
    (htrig : (containsSub " it" (lowerS text) || containsSub "that file" (lowerS text)
        || containsSub "the file" (lowerS text)) = true) :
    resolve_references text ctx =
      laterRules (fileTarget ctx) (ctxGet ctx "last_opened_app") (lowerS text)
        (fileRuleSub ((fileTarget ctx).getD "") text) := by
  unfold resolve_references
  simp [htf, htrig]

/-- Witness for C8's amended theorem: the spec's resolver scenario.
With `last_opened_file = "notes.txt"`, the input
`"can you fix the code in it"` has its "it" resolved and then the
code-fix rule rewrites "the code" as well. -/
theorem file_reference_rewrite_on_trigger_witness :
    resolve_references "can you fix the code in it" ctxDemo =
      "can you fix the code in \"notes.txt\" in the file \"notes.txt\"" := by
  have h := file_reference_rewrite_on_trigger "can you fix the code in it" ctxDemo
    (by decide) (by decide)
  rw [h]
  decide

/-- C9: with an empty `ContextSnapshot` the Reference Resolver is the
identity on every input string (hence idempotent on empty context). -/
theorem resolver_identity_on_empty_context (text : String) :
    resolve_references text [] = text := by
  rfl

/-- C10: in the voice path, a transcript whose trimmed lower-cased text
is `/start`, `/hello` or `/hi` never constructs or invokes the
`TaskPlanner` (the response source is the conversational LLM whatever
the hypothetical planner call would do), and for `/start` the
conversational `GroqLLM.generate_response` clears the session memory
and returns the fixed time-of-day greeting without calling the Groq
API. -/
theorem special_commands_skip_planner (transcript : String) (pc : PlanCall)
    (hour : Nat) (mem : List String) (hasClient : Bool) (api : PlanCall)
    (hsp : isSpecialCommand transcript = true) :
    voiceDecision transcript pc = ⟨false, RespSource.conversational⟩
    ∧ (lowerS (trimS transcript) = "/start" →
        groq_generate_response Option.none transcript hour mem hasClient api
          = ⟨groqStartGreeting hour, [], false⟩) := by
  constructor
  · unfold voiceDecision
    simp [hsp]
  · intro hstart
    unfold groq_generate_response
    simp [sysPromptTruthy, hstart]

/-- Witness for C10: the `/start` transcript with a non-trivial session
memory and a live client. -/
theorem special_commands_skip_planner_witness :
    voiceDecision "/start" (PlanCall.returns "x") = ⟨false, RespSource.conversational⟩
    ∧ groq_generate_response Option.none "/start" 9 ["earlier message"] true
        (PlanCall.returns "y") = ⟨groqStartGreeting 9, [], false⟩ := by
  have h := special_commands_skip_planner "/start" (PlanCall.returns "x") 9
    ["earlier message"] true (PlanCall.returns "y") (by decide)
  exact ⟨h.1, h.2 (by decide)⟩
